import Mathlib

/-!
Shallow embedding of the inventory-registration service
(`src/unnamed/part_000`, and the swagger variant in `src/main.js`).

The HTTP handlers are modelled as pure functions over an explicit state:

* `State.inventory` — the in-memory `inventory` array of records;
* `State.nextId`    — the `nextId` counter;
* `State.files`     — the filesystem, a map from full paths (lists of
  path segments) to file bytes; a relative path `p` written by the
  process denotes the absolute path `cwd ++ p`.

Multer's `diskStorage` runs *before* each handler body: an uploaded file
is written to `join(options.cache, Date.now() + "-" + originalname)`
before any validation in the handler executes.  This ordering is kept
explicit (`storeUpload`), because several properties hinge on it.
-/

namespace Inventory

/-- File contents, as a list of byte values. -/
abbrev Bytes := List Nat

/-- One inventory record, as built by `POST /register`. -/
structure Item where
  id : Nat
  inventory_name : String
  description : String
  photo : Option String
deriving DecidableEq

/-- The server environment: command-line options `host`, `port`,
`cache` (a relative path, as segments), the process working directory
and the `__dirname` of the script (absolute, as segments). -/
structure Env where
  host : String
  port : String
  cwd : List String
  dirname : List String
  cache : List String
deriving DecidableEq

/-- The filesystem: full path (segments) to bytes. -/
abbrev FS := List (List String × Bytes)

/-- The mutable server state: `inventory` array, `nextId` counter and
the on-disk blob files. -/
structure State where
  inventory : List Item
  nextId : Nat
  files : FS
deriving DecidableEq

/-- Fresh server state: `inventory = []`, `nextId = 1`, empty cache dir. -/
def initState : State := { inventory := [], nextId := 1, files := [] }

/-- `fs.writeFile`: (over)write the file at path `p`. -/
def fsWrite (p : List String) (b : Bytes) (fs : FS) : FS :=
  (p, b) :: fs.filter (fun e => !(e.1 == p))

/-- Read the file at path `p`, if present. -/
def fsRead (p : List String) (fs : FS) : Option Bytes :=
  (fs.find? (fun e => e.1 == p)).map Prod.snd

/-- `fs.existsSync`. -/
def fsExists (p : List String) (fs : FS) : Bool :=
  fs.any (fun e => e.1 == p)

/-- `fs.unlinkSync`. -/
def fsUnlink (p : List String) (fs : FS) : FS :=
  fs.filter (fun e => !(e.1 == p))

/-- The guarded deletion idiom of the source:
`if (fs.existsSync(p)) fs.unlinkSync(p)`. -/
def unlinkIfExists (p : List String) (fs : FS) : FS :=
  if fsExists p fs then fsUnlink p fs else fs

/-- The multer `filename` callback:
`const uniqueName = Date.now() + "-" + file.originalname`.
The client-supplied `originalname` is concatenated verbatim. -/
def multerFilename (now : Nat) (originalname : String) : String :=
  toString now ++ "-" ++ originalname

/-- Full path of a blob named `name` in the cache directory, as written
by multer and as read by `path.join(options.cache, name)` resolved
against the working directory. -/
def cachePath (env : Env) (name : String) : List String :=
  env.cwd ++ env.cache ++ [name]

/-- Full path used by the swagger variant's `GET /inventory/:id/photo`:
`path.join(__dirname, options.cache, name)` (absolute, so not resolved
against the working directory). -/
def swaggerPhotoPath (env : Env) (name : String) : List String :=
  env.dirname ++ env.cache ++ [name]

/-- An uploaded file: the `Date.now()` value at upload time, the
client-supplied original name, and the bytes. -/
structure Upload where
  now : Nat
  originalname : String
  bytes : Bytes
deriving DecidableEq

/-- The stored filename of an upload, if one was sent. -/
def uploadFilename (u : Option Upload) : Option String :=
  u.map (fun u => multerFilename u.now u.originalname)

/-- The multer middleware: store the uploaded file (if any) into the
cache directory.  Runs before the handler body. -/
def storeUpload (env : Env) (u : Option Upload) (st : State) : State :=
  match u with
  | none => st
  | some u =>
    { st with files :=
        fsWrite (cachePath env (multerFilename u.now u.originalname)) u.bytes st.files }

/-- JavaScript truthiness of an optional string field
(`undefined` and `""` are falsy). -/
def truthy : Option String → Bool
  | none => false
  | some s => !(s == "")

/-- The truthy projection of the `photo` field: `null` and `""` count
as no photo, anything else is the blob name. -/
def photoStr : Option String → Option String
  | none => none
  | some s => if s == "" then none else some s

/-- HTTP responses of the handlers, restricted to their payloads. -/
inductive Resp where
  | created (item : Item)
  | okItem (item : Item)
  | okItemView (item : Item) (photo_url : Option String)
  | okList (items : List (Item × Option String))
  | okBytes (b : Bytes)
  | okSearch (id : Nat) (inventory_name : String) (description : String)
      (photo_url : Option String)
  | okDeleted (id : Nat)
  | badRequest (msg : String)
  | notFound (msg : String)
deriving DecidableEq

/-- The photo URL `http://host:port/inventory/id/photo`. -/
def photoUrl (env : Env) (id : Nat) : String :=
  "http://" ++ env.host ++ ":" ++ env.port ++ "/inventory/" ++ toString id ++ "/photo"

/-- `item.photo ? url : null`. -/
def photoUrlOpt (env : Env) (it : Item) : Option String :=
  if truthy it.photo then some (photoUrl env it.id) else none

/-- `inventory.find(i => i.id === id)`. -/
def findItem (st : State) (id : Nat) : Option Item :=
  st.inventory.find? (fun i => i.id == id)

/-- `POST /register`: multer stores the upload first, then the handler
validates `inventory_name` and either answers 400 or appends a new
record with the next identifier. -/
def register (env : Env) (st : State) (inventory_name : Option String)
    (description : Option String) (upload : Option Upload) : Resp × State :=
  let st1 := storeUpload env upload st
  if !(truthy inventory_name) then
    (Resp.badRequest "Inventory name is required", st1)
  else
    let newItem : Item :=
      { id := st1.nextId
        inventory_name := inventory_name.getD ""
        description := description.getD ""
        photo := uploadFilename upload }
    (Resp.created newItem,
      { st1 with inventory := st1.inventory ++ [newItem], nextId := st1.nextId + 1 })

/-- `GET /inventory`: every record decorated with its photo URL. -/
def listInventory (env : Env) (st : State) : Resp :=
  Resp.okList (st.inventory.map (fun it => (it, photoUrlOpt env it)))

/-- `GET /inventory/:id`. -/
def getItem (env : Env) (st : State) (id : Nat) : Resp :=
  match findItem st id with
  | none => Resp.notFound "Item not found"
  | some it => Resp.okItemView it (photoUrlOpt env it)

/-- Field update of `PUT /inventory/:id`: a field present in the body
(`!== undefined`) fully replaces the old value, an absent field is left
untouched. -/
def applyUpdate (nameOpt descOpt : Option String) (it : Item) : Item :=
  { it with
    inventory_name := match nameOpt with | some n => n | none => it.inventory_name
    description := match descOpt with | some d => d | none => it.description }

/-- Replace the first item with identifier `id` by `f` of it
(JS mutates the object returned by `find`). -/
def updateFirst (id : Nat) (f : Item → Item) : List Item → List Item
  | [] => []
  | it :: rest => if it.id == id then f it :: rest else it :: updateFirst id f rest

/-- `PUT /inventory/:id`. -/
def updateItem (st : State) (id : Nat) (nameOpt descOpt : Option String) :
    Resp × State :=
  match findItem st id with
  | none => (Resp.notFound "Item not found", st)
  | some it =>
    (Resp.okItem (applyUpdate nameOpt descOpt it),
      { st with inventory := updateFirst id (applyUpdate nameOpt descOpt) st.inventory })

/-- `GET /inventory/:id/photo` (plain variant): 404 if the record, its
photo field, or the blob file is missing; otherwise the blob bytes. -/
def getPhoto (env : Env) (st : State) (id : Nat) : Resp :=
  match findItem st id with
  | none => Resp.notFound "Item not found"
  | some it =>
    match photoStr it.photo with
    | none => Resp.notFound "Photo not found"
    | some p =>
      match fsRead (cachePath env p) st.files with
      | none => Resp.notFound "Photo file not found"
      | some b => Resp.okBytes b

/-- `GET /inventory/:id/photo` in the swagger variant (`src/main.js`):
identical, except the blob is read from
`path.join(__dirname, options.cache, photo)`. -/
def getPhotoSwagger (env : Env) (st : State) (id : Nat) : Resp :=
  match findItem st id with
  | none => Resp.notFound "Item not found"
  | some it =>
    match photoStr it.photo with
    | none => Resp.notFound "Photo not found"
    | some p =>
      match fsRead (swaggerPhotoPath env p) st.files with
      | none => Resp.notFound "Photo file not found"
      | some b => Resp.okBytes b

/-- `PUT /inventory/:id/photo`: multer stores the new upload first;
then the handler looks the record up (404 if absent), deletes the old
blob file if the record had one, and sets the `photo` field to the new
filename (or `null` when no file was sent). -/
def putPhoto (env : Env) (st : State) (id : Nat) (upload : Option Upload) :
    Resp × State :=
  let st1 := storeUpload env upload st
  match findItem st1 id with
  | none => (Resp.notFound "Item not found", st1)
  | some it =>
    let fs2 := match photoStr it.photo with
      | some old => unlinkIfExists (cachePath env old) st1.files
      | none => st1.files
    let newPhoto := uploadFilename upload
    (Resp.okItem { it with photo := newPhoto },
      { st1 with files := fs2
                 inventory := updateFirst id (fun i => { i with photo := newPhoto }) st1.inventory })

/-- Remove the first item with identifier `id`
(`inventory.splice(itemIndex, 1)` at the `findIndex` position). -/
def removeFirst (id : Nat) : List Item → List Item
  | [] => []
  | it :: rest => if it.id == id then rest else it :: removeFirst id rest

/-- `DELETE /inventory/:id`: 404 if absent; otherwise delete the blob
file (if the record has one) and remove the record from the array. -/
def deleteItem (env : Env) (st : State) (id : Nat) : Resp × State :=
  match findItem st id with
  | none => (Resp.notFound "Item not found", st)
  | some it =>
    let fs := match photoStr it.photo with
      | some p => unlinkIfExists (cachePath env p) st.files
      | none => st.files
    (Resp.okDeleted id, { st with inventory := removeFirst id st.inventory, files := fs })

/-- `POST /search`: look the record up; build the result description in
a local variable, appending the photo URL when `has_photo === "true"`
and the record has a photo.  The handler never writes to the store. -/
def search (env : Env) (st : State) (id : Nat) (has_photo : String) : Resp :=
  let hasPhoto := has_photo == "true"
  match findItem st id with
  | none => Resp.notFound "Item not found"
  | some it =>
    let description :=
      if hasPhoto && truthy it.photo then
        it.description ++ " [Фото: " ++ photoUrl env it.id ++ "]"
      else it.description
    Resp.okSearch it.id it.inventory_name description (photoUrlOpt env it)

/-- One boundary request. -/
inductive Op where
  | register (inventory_name : Option String) (description : Option String)
      (upload : Option Upload)
  | list
  | get (id : Nat)
  | update (id : Nat) (inventory_name : Option String) (description : Option String)
  | getPhoto (id : Nat)
  | putPhoto (id : Nat) (upload : Option Upload)
  | delete (id : Nat)
  | search (id : Nat) (has_photo : String)
deriving DecidableEq

/-- Execute one request against the state. -/
def exec (env : Env) (st : State) : Op → Resp × State
  | Op.register n d u => register env st n d u
  | Op.list => (listInventory env st, st)
  | Op.get id => (getItem env st id, st)
  | Op.update id n d => updateItem st id n d
  | Op.getPhoto id => (getPhoto env st id, st)
  | Op.putPhoto id u => putPhoto env st id u
  | Op.delete id => deleteItem env st id
  | Op.search id f => (search env st id f, st)

/-- Run a sequence of requests. -/
def run (env : Env) (st : State) : List Op → State
  | [] => st
  | op :: ops => run env (exec env st op).2 ops

/-- The identifiers returned by the successful creates of a request
sequence, in order. -/
def createdIds (env : Env) (st : State) : List Op → List Nat
  | [] => []
  | op :: ops =>
    match (exec env st op).1 with
    | Resp.created it => it.id :: createdIds env (exec env st op).2 ops
    | _ => createdIds env (exec env st op).2 ops

/-- Is the blob file at path `p` referenced by the photo field of some
record in the store? -/
def blobReferenced (env : Env) (st : State) (p : List String) : Bool :=
  st.inventory.any (fun it =>
    match photoStr it.photo with
    | some name => cachePath env name == p
    | none => false)

/-- Every stored blob is referenced by some record. -/
def orphanFree (env : Env) (st : State) : Bool :=
  st.files.all (fun e => blobReferenced env st e.1)

/-- A concrete environment: server started from `/srv`, script directory
`/srv/app`, cache directory option `cache` (relative). -/
def env0 : Env :=
  { host := "localhost", port := "3000",
    cwd := ["srv"], dirname := ["srv", "app"], cache := ["cache"] }

example :
    (register env0 initState (some "Laptop") none (some ⟨1, "a.jpg", [7]⟩)).2.inventory =
      [⟨1, "Laptop", "", some "1-a.jpg"⟩] := by decide

example :
    orphanFree env0 (run env0 initState
      [Op.register none none (some ⟨5, "a.jpg", [1, 2, 3]⟩)]) = false := by decide

/-! ### Basic lemmas about the handlers -/

lemma storeUpload_inventory (env : Env) (u : Option Upload) (st : State) :
    (storeUpload env u st).inventory = st.inventory := by
  cases u <;> rfl

lemma storeUpload_nextId (env : Env) (u : Option Upload) (st : State) :
    (storeUpload env u st).nextId = st.nextId := by
  cases u <;> rfl

lemma register_fail (env : Env) (st : State) (nOpt dOpt : Option String)
    (u : Option Upload) (h : truthy nOpt = false) :
    register env st nOpt dOpt u =
      (Resp.badRequest "Inventory name is required", storeUpload env u st) := by
  simp [register, h]

lemma register_success (env : Env) (st : State) (nOpt dOpt : Option String)
    (u : Option Upload) (h : truthy nOpt = true) :
    register env st nOpt dOpt u =
      (Resp.created
        { id := st.nextId, inventory_name := nOpt.getD "",
          description := dOpt.getD "", photo := uploadFilename u },
       { inventory := (storeUpload env u st).inventory ++
            [{ id := st.nextId, inventory_name := nOpt.getD "",
               description := dOpt.getD "", photo := uploadFilename u }],
         nextId := st.nextId + 1,
         files := (storeUpload env u st).files }) := by
  simp [register, h, storeUpload_nextId]

lemma updateItem_ne_created (st : State) (id : Nat) (nOpt dOpt : Option String)
    (it : Item) : (updateItem st id nOpt dOpt).1 ≠ Resp.created it := by
  unfold updateItem; cases findItem st id <;> simp

lemma updateItem_nextId (st : State) (id : Nat) (nOpt dOpt : Option String) :
    (updateItem st id nOpt dOpt).2.nextId = st.nextId := by
  unfold updateItem; cases findItem st id <;> simp

lemma putPhoto_ne_created (env : Env) (st : State) (id : Nat) (u : Option Upload)
    (it : Item) : (putPhoto env st id u).1 ≠ Resp.created it := by
  unfold putPhoto; cases h : findItem (storeUpload env u st) id <;> simp [h]

lemma putPhoto_nextId (env : Env) (st : State) (id : Nat) (u : Option Upload) :
    (putPhoto env st id u).2.nextId = st.nextId := by
  unfold putPhoto; cases h : findItem (storeUpload env u st) id <;>
    simp [h, storeUpload_nextId]

lemma deleteItem_ne_created (env : Env) (st : State) (id : Nat) (it : Item) :
    (deleteItem env st id).1 ≠ Resp.created it := by
  unfold deleteItem; cases findItem st id <;> simp

lemma deleteItem_nextId (env : Env) (st : State) (id : Nat) :
    (deleteItem env st id).2.nextId = st.nextId := by
  unfold deleteItem; cases findItem st id <;> simp

lemma getItem_ne_created (env : Env) (st : State) (id : Nat) (it : Item) :
    getItem env st id ≠ Resp.created it := by
  unfold getItem; cases findItem st id <;> simp

lemma getPhoto_ne_created (env : Env) (st : State) (id : Nat) (it : Item) :
    getPhoto env st id ≠ Resp.created it := by
  unfold getPhoto
  cases h1 : findItem st id with
  | none => simp [h1]
  | some x =>
    cases h2 : photoStr x.photo with
    | none => simp [h1, h2]
    | some p =>
      cases h3 : fsRead (cachePath env p) st.files <;> simp [h1, h2, h3]

lemma search_ne_created (env : Env) (st : State) (id : Nat) (f : String)
    (it : Item) : search env st id f ≠ Resp.created it := by
  unfold search; cases findItem st id <;> simp

/-! ### The identifier allocator along a request trace -/

lemma createdIds_cons (env : Env) (st : State) (op : Op) (ops : List Op) :
    createdIds env st (op :: ops) =
      match (exec env st op).1 with
      | Resp.created it => it.id :: createdIds env (exec env st op).2 ops
      | _ => createdIds env (exec env st op).2 ops := rfl

lemma createdIds_cons_of_ne (env : Env) (st : State) (op : Op) (ops : List Op)
    (h : ∀ it, (exec env st op).1 ≠ Resp.created it) :
    createdIds env st (op :: ops) = createdIds env (exec env st op).2 ops := by
  rw [createdIds_cons]
  cases hres : (exec env st op).1 <;> first
    | exact absurd hres (h _)
    | simp [hres]

lemma createdIds_cons_created (env : Env) (st : State) (op : Op) (ops : List Op)
    (it : Item) (h : (exec env st op).1 = Resp.created it) :
    createdIds env st (op :: ops) = it.id :: createdIds env (exec env st op).2 ops := by
  rw [createdIds_cons, h]

/-- Along any request trace, the identifiers handed out by successful
creates form the contiguous ascending range starting at the current
`nextId` counter. -/
lemma createdIds_eq_range' (env : Env) :
    ∀ (ops : List Op) (st : State),
      ∃ n, createdIds env st ops = List.range' st.nextId n := by
  intro ops
  induction ops with
  | nil => exact fun st => ⟨0, rfl⟩
  | cons op ops ih =>
    intro st
    cases op with
    | register nOpt dOpt u =>
      cases htr : truthy nOpt with
      | false =>
        obtain ⟨k, hk⟩ := ih (exec env st (Op.register nOpt dOpt u)).2
        refine ⟨k, ?_⟩
        rw [createdIds_cons_of_ne env st _ ops (by
          simp [exec, register_fail env st nOpt dOpt u htr]), hk]
        simp [exec, register_fail env st nOpt dOpt u htr, storeUpload_nextId]
      | true =>
        obtain ⟨k, hk⟩ := ih (exec env st (Op.register nOpt dOpt u)).2
        refine ⟨k + 1, ?_⟩
        have h1 : (exec env st (Op.register nOpt dOpt u)).1 = Resp.created
            { id := st.nextId, inventory_name := nOpt.getD "",
              description := dOpt.getD "", photo := uploadFilename u } := by
          simp [exec, register_success env st nOpt dOpt u htr]
        have h2 : (exec env st (Op.register nOpt dOpt u)).2.nextId = st.nextId + 1 := by
          simp [exec, register_success env st nOpt dOpt u htr]
        rw [createdIds_cons_created env st _ ops _ h1, hk, h2, List.range'_succ]
    | list =>
      obtain ⟨k, hk⟩ := ih st
      exact ⟨k, by rw [createdIds_cons_of_ne env st _ ops (by
        simp [exec, listInventory])]; exact hk⟩
    | get id =>
      obtain ⟨k, hk⟩ := ih st
      exact ⟨k, by rw [createdIds_cons_of_ne env st _ ops (by
        intro it; simp only [exec]; exact getItem_ne_created env st id it)]; exact hk⟩
    | update id nOpt dOpt =>
      obtain ⟨k, hk⟩ := ih (exec env st (Op.update id nOpt dOpt)).2
      refine ⟨k, ?_⟩
      rw [createdIds_cons_of_ne env st _ ops (by
        intro it; simp only [exec]; exact updateItem_ne_created st id nOpt dOpt it), hk]
      simp [exec, updateItem_nextId]
    | getPhoto id =>
      obtain ⟨k, hk⟩ := ih st
      exact ⟨k, by rw [createdIds_cons_of_ne env st _ ops (by
        intro it; simp only [exec]; exact getPhoto_ne_created env st id it)]; exact hk⟩
    | putPhoto id u =>
      obtain ⟨k, hk⟩ := ih (exec env st (Op.putPhoto id u)).2
      refine ⟨k, ?_⟩
      rw [createdIds_cons_of_ne env st _ ops (by
        intro it; simp only [exec]; exact putPhoto_ne_created env st id u it), hk]
      simp [exec, putPhoto_nextId]
    | delete id =>
      obtain ⟨k, hk⟩ := ih (exec env st (Op.delete id)).2
      refine ⟨k, ?_⟩
      rw [createdIds_cons_of_ne env st _ ops (by
        intro it; simp only [exec]; exact deleteItem_ne_created env st id it), hk]
      simp [exec, deleteItem_nextId]
    | search id f =>
      obtain ⟨k, hk⟩ := ih st
      exact ⟨k, by rw [createdIds_cons_of_ne env st _ ops (by
        intro it; simp only [exec]; exact search_ne_created env st id f it)]; exact hk⟩

/-! ### Reachable-state invariant: identifiers in the store are
strictly increasing, hence distinct -/

/-- The store invariant: record identifiers appear in strictly
increasing order and are all below the allocator counter. -/
def StoreInv (st : State) : Prop :=
  (st.inventory.map Item.id).Pairwise (fun a b => a < b)
  ∧ ∀ i ∈ st.inventory.map Item.id, i < st.nextId

lemma map_id_updateFirst (id : Nat) (f : Item → Item)
    (hf : ∀ x, (f x).id = x.id) :
    ∀ l : List Item, (updateFirst id f l).map Item.id = l.map Item.id := by
  intro l
  induction l with
  | nil => rfl
  | cons a rest ih =>
    simp only [updateFirst]
    split
    · simp [hf]
    · simp [ih]

lemma removeFirst_sublist (id : Nat) :
    ∀ l : List Item, List.Sublist (removeFirst id l) l := by
  intro l
  induction l with
  | nil => exact List.Sublist.refl []
  | cons a rest ih =>
    simp only [removeFirst]
    split
    · exact List.sublist_cons_self a rest
    · exact List.Sublist.cons₂ a ih

lemma storeInv_exec (env : Env) (st : State) (op : Op) (h : StoreInv st) :
    StoreInv (exec env st op).2 := by
  obtain ⟨hpw, hlt⟩ := h
  cases op with
  | register nOpt dOpt u =>
    cases htr : truthy nOpt with
    | false =>
      rw [exec, register_fail env st nOpt dOpt u htr]
      constructor
      · rw [storeUpload_inventory]; exact hpw
      · rw [storeUpload_inventory, storeUpload_nextId]; exact hlt
    | true =>
      rw [exec, register_success env st nOpt dOpt u htr]
      constructor
      · simp only [List.map_append, storeUpload_inventory, List.map_cons, List.map_nil]
        rw [List.pairwise_append]
        refine ⟨hpw, List.pairwise_singleton _ _, ?_⟩
        intro a ha b hb
        simp at hb
        subst hb
        exact hlt a ha
      · intro i hi
        simp only [List.map_append, storeUpload_inventory, List.map_cons,
          List.map_nil] at hi
        rcases List.mem_append.mp hi with hi | hi
        · exact Nat.lt_succ_of_lt (hlt i hi)
        · simp at hi
          subst hi
          exact Nat.lt_succ_self _
  | list => exact ⟨hpw, hlt⟩
  | get id => exact ⟨hpw, hlt⟩
  | update id nOpt dOpt =>
    have hmap : (exec env st (Op.update id nOpt dOpt)).2.inventory.map Item.id
        = st.inventory.map Item.id := by
      simp only [exec]
      unfold updateItem
      cases hfi : findItem st id with
      | none => rfl
      | some it =>
        simp only [hfi]
        exact map_id_updateFirst id (applyUpdate nOpt dOpt) (fun x => rfl) st.inventory
    refine ⟨by rw [hmap]; exact hpw, ?_⟩
    rw [hmap]
    simp only [exec, updateItem_nextId]
    exact hlt
  | getPhoto id => exact ⟨hpw, hlt⟩
  | putPhoto id u =>
    have hmap : (exec env st (Op.putPhoto id u)).2.inventory.map Item.id
        = st.inventory.map Item.id := by
      simp only [exec]
      unfold putPhoto
      cases hfi : findItem (storeUpload env u st) id with
      | none => simp [hfi, storeUpload_inventory]
      | some it =>
        simp only [hfi, storeUpload_inventory]
        exact map_id_updateFirst id
          (fun i => { i with photo := uploadFilename u }) (fun x => rfl) st.inventory
    refine ⟨by rw [hmap]; exact hpw, ?_⟩
    rw [hmap]
    simp only [exec, putPhoto_nextId]
    exact hlt
  | delete id =>
    have hsub : List.Sublist (exec env st (Op.delete id)).2.inventory st.inventory := by
      simp only [exec]
      unfold deleteItem
      cases hfi : findItem st id with
      | none => exact List.Sublist.refl _
      | some it => simp [hfi, removeFirst_sublist]
    refine ⟨List.Pairwise.sublist (List.Sublist.map Item.id hsub) hpw, ?_⟩
    intro i hi
    simp only [exec, deleteItem_nextId]
    exact hlt i (List.Sublist.map Item.id hsub |>.subset hi)
  | search id f => exact ⟨hpw, hlt⟩

/-- Every state reachable from a fresh server satisfies the store
invariant; in particular its record identifiers are distinct. -/
lemma storeInv_run (env : Env) :
    ∀ (ops : List Op) (st : State), StoreInv st → StoreInv (run env st ops) := by
  intro ops
  induction ops with
  | nil => exact fun st h => h
  | cons op ops ih => exact fun st h => ih _ (storeInv_exec env st op h)

lemma reachable_ids_nodup (env : Env) (ops : List Op) :
    ((run env initState ops).inventory.map Item.id).Nodup := by
  have h := storeInv_run env ops initState ⟨List.Pairwise.nil, by simp [initState]⟩
  exact h.1.imp Nat.ne_of_lt

/-! ### Claims -/

/-- C4: for every sequence of operations against a fresh server, the
identifiers returned by successful creates are strictly increasing
(every id exceeds each previously returned one), pairwise distinct —
so never reused, even across interleaved deletes — and the first
returned id is 1. -/
theorem allocator_ids_strictly_increasing (env : Env) (ops : List Op) :
    List.Pairwise (fun a b => a < b) (createdIds env initState ops)
    ∧ (createdIds env initState ops).Nodup
    ∧ (createdIds env initState ops = []
        ∨ (createdIds env initState ops).head? = some 1) := by
  obtain ⟨n, hn⟩ := createdIds_eq_range' env ops initState
  have hn1 : createdIds env initState ops = List.range' 1 n := hn
  refine ⟨?_, ?_, ?_⟩
  · rw [hn1]; exact List.pairwise_lt_range' 1 n
  · rw [hn1]; exact List.nodup_range' 1 n
  · rw [hn1]
    cases n with
    | zero => exact Or.inl rfl
    | succ m => exact Or.inr (by rw [List.range'_succ]; rfl)

/-- C3: `Create(name, description, photoBytes?)` fails with the
invalid-input error exactly when `name` is empty; on success it returns
a record carrying the freshly allocated id, the given name, the
supplied description (or the empty string when absent), a photo exactly
when an upload was sent, and the record is appended at the end of the
store. -/
theorem create_semantics (env : Env) (st : State) (name : String)
    (dOpt : Option String) (u : Option Upload) :
    (name = "" →
      (register env st (some name) dOpt u).1 = Resp.badRequest "Inventory name is required")
    ∧ (name ≠ "" →
      ∃ itm, (register env st (some name) dOpt u).1 = Resp.created itm
        ∧ itm.id = st.nextId
        ∧ itm.inventory_name = name
        ∧ itm.description = dOpt.getD ""
        ∧ (itm.photo.isSome ↔ u.isSome)
        ∧ (register env st (some name) dOpt u).2.inventory = st.inventory ++ [itm]
        ∧ (register env st (some name) dOpt u).2.nextId = st.nextId + 1) := by
  constructor
  · intro h
    subst h
    rw [register_fail env st (some "") dOpt u (by decide)]
  · intro h
    have htr : truthy (some name) = true := by simp [truthy, h]
    rw [register_success env st (some name) dOpt u htr]
    refine ⟨_, rfl, rfl, rfl, rfl, ?_, ?_, rfl⟩
    · simp [uploadFilename]
    · simp [storeUpload_inventory]

/-- C3 witness: a concrete successful create. -/
theorem create_semantics_witness :
    ∃ itm, (register env0 initState (some "Laptop Asus") (some "Gaming laptop") none).1
        = Resp.created itm
      ∧ itm.id = initState.nextId
      ∧ itm.inventory_name = "Laptop Asus"
      ∧ itm.description = (some "Gaming laptop").getD ""
      ∧ (itm.photo.isSome ↔ (none : Option Upload).isSome)
      ∧ (register env0 initState (some "Laptop Asus") (some "Gaming laptop") none).2.inventory
          = initState.inventory ++ [itm]
      ∧ (register env0 initState (some "Laptop Asus") (some "Gaming laptop") none).2.nextId
          = initState.nextId + 1 :=
  (create_semantics env0 initState "Laptop Asus" (some "Gaming laptop") none).2
    (by decide)

/-- C7: a create with an empty name fails with the invalid-input error,
adds no record, consumes no identifier, and a next successful create
returns exactly the id the failed call would have returned. -/
theorem create_empty_name_no_effect (env : Env) (st : State)
    (dOpt : Option String) (u : Option Upload) :
    (register env st (some "") dOpt u).1 = Resp.badRequest "Inventory name is required"
    ∧ (register env st (some "") dOpt u).2.inventory = st.inventory
    ∧ (register env st (some "") dOpt u).2.nextId = st.nextId
    ∧ ∀ (name2 : String) (d2 : Option String) (u2 : Option Upload), name2 ≠ "" →
        ∃ itm, (register env (register env st (some "") dOpt u).2 (some name2) d2 u2).1
            = Resp.created itm ∧ itm.id = st.nextId := by
  have hf := register_fail env st (some "") dOpt u (by decide)
  refine ⟨by rw [hf], by rw [hf]; exact storeUpload_inventory env u st,
    by rw [hf]; exact storeUpload_nextId env u st, ?_⟩
  intro name2 d2 u2 h2
  have htr : truthy (some name2) = true := by simp [truthy, h2]
  rw [hf, register_success env (storeUpload env u st) (some name2) d2 u2 htr]
  exact ⟨_, rfl, storeUpload_nextId env u st⟩

/-- C7 witness: a concrete failed create followed by a successful one. -/
theorem create_empty_name_no_effect_witness :
    (register env0 initState (some "") (some "x") none).1
        = Resp.badRequest "Inventory name is required"
    ∧ (register env0 initState (some "") (some "x") none).2.inventory = initState.inventory
    ∧ (register env0 initState (some "") (some "x") none).2.nextId = initState.nextId
    ∧ ∃ itm, (register env0 (register env0 initState (some "") (some "x") none).2
          (some "Laptop") none none).1 = Resp.created itm ∧ itm.id = initState.nextId := by
  obtain ⟨h1, h2, h3, h4⟩ := create_empty_name_no_effect env0 initState (some "x") none
  exact ⟨h1, h2, h3, h4 "Laptop" none none (by decide)⟩

/-- C1 (failing inputs): multer stores the uploaded blob before the
handler validates; the error paths of `POST /register` (missing name)
and `PUT /inventory/:id/photo` (unknown id) answer 4xx but leave the
stored blob on disk, referenced by no record — an orphaned blob. -/
theorem failed_upload_orphans_blob :
    orphanFree env0 (run env0 initState
        [Op.register none none (some ⟨5, "a.jpg", [1, 2, 3]⟩)]) = false
    ∧ orphanFree env0 (run env0 initState
        [Op.putPhoto 7 (some ⟨6, "b.jpg", [4]⟩)]) = false
    ∧ (run env0 initState
        [Op.register none none (some ⟨5, "a.jpg", [1, 2, 3]⟩)]).inventory = []
    ∧ fsRead (cachePath env0 "5-a.jpg")
        (run env0 initState
          [Op.register none none (some ⟨5, "a.jpg", [1, 2, 3]⟩)]).files
        = some [1, 2, 3] := by decide

/-- After removing the first item with identifier `id` from a list
whose identifiers are distinct, no item with that identifier remains. -/
lemma find?_removeFirst (id : Nat) (l : List Item)
    (h : (l.map Item.id).Nodup) :
    (removeFirst id l).find? (fun i => i.id == id) = none := by
  induction l with
  | nil => rfl
  | cons a rest ih =>
    rw [List.map_cons, List.nodup_cons] at h
    simp only [removeFirst]
    by_cases ha : a.id = id
    · rw [if_pos (by simp [ha])]
      rw [List.find?_eq_none]
      intro x hx
      simp only [beq_iff_eq]
      intro hxid
      exact h.1 (by rw [← ha] at hxid; rw [← hxid]; exact List.mem_map_of_mem Item.id hx)
    · rw [if_neg (by simp [ha])]
      rw [List.find?_cons_of_neg _ (by simp [ha])]
      exact ih h.2

/-- Reading a path just unlinked yields nothing. -/
lemma fsRead_fsUnlink (p : List String) (fs : FS) :
    fsRead p (fsUnlink p fs) = none := by
  unfold fsRead fsUnlink
  rw [List.find?_eq_none.mpr]
  · rfl
  · intro x hx
    have := (List.mem_filter.mp hx).2
    simp at this
    simp [this]

lemma fsRead_unlinkIfExists (p : List String) (fs : FS) :
    fsRead p (unlinkIfExists p fs) = none := by
  unfold unlinkIfExists
  split
  · exact fsRead_fsUnlink p fs
  · rename_i h
    have h2 : fsExists p fs = false := by
      cases h3 : fsExists p fs
      · rfl
      · exact absurd h3 h
    unfold fsRead
    rw [List.find?_eq_none.mpr]
    · rfl
    · exact List.any_eq_false.mp h2

/-- The first item with identifier `id`, updated by an id-preserving
`f`, is found by a subsequent lookup. -/
lemma find?_updateFirst (id : Nat) (f : Item → Item)
    (hf : ∀ x, (f x).id = x.id) :
    ∀ (l : List Item) (it : Item), l.find? (fun i => i.id == id) = some it →
      (updateFirst id f l).find? (fun i => i.id == id) = some (f it) := by
  intro l
  induction l with
  | nil => intro it h; cases h
  | cons a rest ih =>
    intro it h
    by_cases ha : a.id = id
    · rw [List.find?_cons_of_pos _ (by simp [ha])] at h
      cases h
      simp only [updateFirst, if_pos (by simp [ha] : (a.id == id) = true)]
      rw [List.find?_cons_of_pos _ (by simp [hf, ha])]
    · rw [List.find?_cons_of_neg _ (by simp [ha])] at h
      simp only [updateFirst, if_neg (by simp [ha] : ¬ (a.id == id) = true)]
      rw [List.find?_cons_of_neg _ (by simp [ha])]
      exact ih it h

/-- Items with a different identifier survive `updateFirst` unchanged. -/
lemma mem_updateFirst_of_ne (id : Nat) (f : Item → Item) :
    ∀ (l : List Item), ∀ x ∈ l, x.id ≠ id → x ∈ updateFirst id f l := by
  intro l
  induction l with
  | nil => intro x hx; cases hx
  | cons a rest ih =>
    intro x hx hne
    simp only [updateFirst]
    split
    · rename_i hcond
      rcases List.mem_cons.mp hx with rfl | hxr
      · exact absurd (by simpa using hcond) hne
      · exact List.mem_cons_of_mem _ hxr
    · rcases List.mem_cons.mp hx with rfl | hxr
      · exact List.mem_cons_self _ _
      · exact List.mem_cons_of_mem _ (ih x hxr hne)

/-- C6: `Delete(id)` answers 404 and changes nothing when `id` is
unknown; when `id` is present (in a store with distinct identifiers, as
the allocator guarantees) it removes the record and unlinks its blob in
the same step, so a subsequent lookup fails and the old blob path reads
nothing. -/
theorem delete_semantics (env : Env) (st : State) (id : Nat)
    (hids : (st.inventory.map Item.id).Nodup) :
    (findItem st id = none → deleteItem env st id = (Resp.notFound "Item not found", st))
    ∧ ∀ it, findItem st id = some it →
        (deleteItem env st id).1 = Resp.okDeleted id
        ∧ findItem (deleteItem env st id).2 id = none
        ∧ ∀ p, photoStr it.photo = some p →
            fsRead (cachePath env p) (deleteItem env st id).2.files = none := by
  constructor
  · intro h
    unfold deleteItem
    rw [h]
  · intro it h
    have hd : deleteItem env st id = (Resp.okDeleted id,
        { st with inventory := removeFirst id st.inventory,
                  files := match photoStr it.photo with
                    | some p => unlinkIfExists (cachePath env p) st.files
                    | none => st.files }) := by
      unfold deleteItem
      rw [h]
    refine ⟨by rw [hd], ?_, ?_⟩
    · rw [hd]
      exact find?_removeFirst id st.inventory hids
    · intro p hp
      rw [hp] at hd
      rw [hd]
      exact fsRead_unlinkIfExists _ _

/-- The state after registering one item with a photo
(`Date.now() = 1`, original name `a.jpg`, bytes `[7]`). -/
def st1 : State :=
  (register env0 initState (some "Laptop") none (some ⟨1, "a.jpg", [7]⟩)).2

/-- C6 witness: deleting the one registered item. -/
theorem delete_semantics_witness :
    (deleteItem env0 st1 1).1 = Resp.okDeleted 1
    ∧ findItem (deleteItem env0 st1 1).2 1 = none
    ∧ fsRead (cachePath env0 "1-a.jpg") (deleteItem env0 st1 1).2.files = none := by
  obtain ⟨-, h2⟩ := delete_semantics env0 st1 1 (by decide)
  obtain ⟨a, b, c⟩ := h2 ⟨1, "Laptop", "", some "1-a.jpg"⟩ (by decide)
  exact ⟨a, b, c "1-a.jpg" (by decide)⟩

/-- C8: `UpdateMetadata(id, name?, description?)` replaces exactly the
supplied fields; an absent field keeps its previous value, `id` and
`photo` are never modified, records with other identifiers are
untouched, and neither the counter nor the blob files change. -/
theorem update_metadata_frame (st : State) (id : Nat)
    (nOpt dOpt : Option String) :
    (findItem st id = none → updateItem st id nOpt dOpt = (Resp.notFound "Item not found", st))
    ∧ ∀ it, findItem st id = some it →
        ∃ it2, (updateItem st id nOpt dOpt).1 = Resp.okItem it2
          ∧ it2.id = it.id
          ∧ it2.photo = it.photo
          ∧ it2.inventory_name = nOpt.getD it.inventory_name
          ∧ it2.description = dOpt.getD it.description
          ∧ findItem (updateItem st id nOpt dOpt).2 id = some it2
          ∧ (∀ x ∈ st.inventory, x.id ≠ id → x ∈ (updateItem st id nOpt dOpt).2.inventory)
          ∧ (updateItem st id nOpt dOpt).2.files = st.files
          ∧ (updateItem st id nOpt dOpt).2.nextId = st.nextId := by
  constructor
  · intro h
    unfold updateItem
    rw [h]
  · intro it h
    have hd : updateItem st id nOpt dOpt = (Resp.okItem (applyUpdate nOpt dOpt it),
        { st with inventory := updateFirst id (applyUpdate nOpt dOpt) st.inventory }) := by
      unfold updateItem
      rw [h]
    refine ⟨applyUpdate nOpt dOpt it, by rw [hd], rfl, rfl, ?_, ?_, ?_, ?_,
      by rw [hd], by rw [hd]⟩
    · cases nOpt <;> rfl
    · cases dOpt <;> rfl
    · rw [hd]
      exact find?_updateFirst id (applyUpdate nOpt dOpt) (fun x => rfl) st.inventory it h
    · intro x hx hne
      rw [hd]
      exact mem_updateFirst_of_ne id (applyUpdate nOpt dOpt) st.inventory x hx hne

/-- C8 witness: updating only the description leaves the name, id and
photo of the concrete item unchanged. -/
theorem update_metadata_frame_witness :
    ∃ it2, (updateItem st1 1 none (some "Updated")).1 = Resp.okItem it2
      ∧ it2.id = 1
      ∧ it2.photo = some "1-a.jpg"
      ∧ it2.inventory_name = "Laptop"
      ∧ it2.description = "Updated"
      ∧ findItem (updateItem st1 1 none (some "Updated")).2 1 = some it2 := by
  obtain ⟨-, h2⟩ := update_metadata_frame st1 1 none (some "Updated")
  obtain ⟨it2, a, b, c, d, e, f, -, -, -⟩ :=
    h2 ⟨1, "Laptop", "", some "1-a.jpg"⟩ (by decide)
  exact ⟨it2, a, b, c, d, e, f⟩

/-- C9: `ReadPhotoBytes(id)` answers the not-found kind exactly when
the record is absent, or its photo field is absent, or the blob file is
missing from the cache directory; in every other case it returns the
stored bytes. -/
theorem read_photo_bytes_errors (env : Env) (st : State) (id : Nat) :
    ((∃ msg, getPhoto env st id = Resp.notFound msg) ↔
      (findItem st id = none
        ∨ (∃ it, findItem st id = some it ∧ photoStr it.photo = none)
        ∨ (∃ it p, findItem st id = some it ∧ photoStr it.photo = some p
            ∧ fsRead (cachePath env p) st.files = none)))
    ∧ (∀ it p b, findItem st id = some it → photoStr it.photo = some p →
        fsRead (cachePath env p) st.files = some b →
        getPhoto env st id = Resp.okBytes b) := by
  constructor
  · constructor
    · rintro ⟨msg, hm⟩
      unfold getPhoto at hm
      cases h1 : findItem st id with
      | none => exact Or.inl rfl
      | some it =>
        cases h2 : photoStr it.photo with
        | none => exact Or.inr (Or.inl ⟨it, rfl, h2⟩)
        | some p =>
          cases h3 : fsRead (cachePath env p) st.files with
          | none => exact Or.inr (Or.inr ⟨it, p, rfl, h2, h3⟩)
          | some b => simp [h1, h2, h3] at hm
    · rintro (h1 | ⟨it, h1, h2⟩ | ⟨it, p, h1, h2, h3⟩)
      · exact ⟨"Item not found", by unfold getPhoto; simp [h1]⟩
      · exact ⟨"Photo not found", by unfold getPhoto; simp [h1, h2]⟩
      · exact ⟨"Photo file not found", by unfold getPhoto; simp [h1, h2, h3]⟩
  · intro it p b h1 h2 h3
    unfold getPhoto
    simp [h1, h2, h3]

/-- C9 witness: reading the photo of the concrete registered item. -/
theorem read_photo_bytes_errors_witness :
    getPhoto env0 st1 1 = Resp.okBytes [7] :=
  (read_photo_bytes_errors env0 st1 1).2 ⟨1, "Laptop", "", some "1-a.jpg"⟩
    "1-a.jpg" [7] (by decide) (by decide) (by decide)

/-- The state after replacing the photo of the registered item
(`Date.now() = 2`, original name `b.jpg`, bytes `[8]`). -/
def stR : State := (putPhoto env0 st1 1 (some ⟨2, "b.jpg", [8]⟩)).2

/-- C5 (failing input): after `ReplacePhoto`, exactly one blob is on
disk and it holds the new bytes, the old blob is gone, and an absent
upload clears the photo field — but the swagger variant in
`src/main.js` reads the blob back from the `__dirname`-prefixed path
`path.join(__dirname, options.cache, photo)`, which misses the blob
multer wrote at `path.join(options.cache, photo)` whenever the process
working directory is not `__dirname`, so the stored blob is not
retrievable there. -/
theorem replace_photo_swagger_read_divergence :
    (putPhoto env0 st1 1 (some ⟨2, "b.jpg", [8]⟩)).1
      = Resp.okItem ⟨1, "Laptop", "", some "2-b.jpg"⟩
    ∧ stR.files = [(cachePath env0 "2-b.jpg", [8])]
    ∧ getPhoto env0 stR 1 = Resp.okBytes [8]
    ∧ fsRead (cachePath env0 "1-a.jpg") stR.files = none
    ∧ (putPhoto env0 st1 1 none).1 = Resp.okItem ⟨1, "Laptop", "", none⟩
    ∧ getPhotoSwagger env0 stR 1 = Resp.notFound "Photo file not found" := by
  decide

/-- C10: `POST /search` never mutates the store: the state after a
search is the state before it, repeating the search yields the same
result, the stored record keeps its fields, and the photo-URL text is
appended only to the response, not to the stored description. -/
theorem search_does_not_mutate (env : Env) (st : State) (id : Nat) (flag : String) :
    (exec env st (Op.search id flag)).2 = st
    ∧ (exec env (exec env st (Op.search id flag)).2 (Op.search id flag)).1
        = (exec env st (Op.search id flag)).1
    ∧ (∀ it, findItem st id = some it →
        ∃ it2, findItem (exec env st (Op.search id flag)).2 id = some it2
          ∧ it2.description = it.description
          ∧ it2.inventory_name = it.inventory_name
          ∧ it2.photo = it.photo)
    ∧ (∀ it, findItem st id = some it → flag = "true" → truthy it.photo = true →
        (exec env st (Op.search id flag)).1
          = Resp.okSearch it.id it.inventory_name
              (it.description ++ " [Фото: " ++ photoUrl env it.id ++ "]")
              (photoUrlOpt env it)) := by
  refine ⟨rfl, rfl, ?_, ?_⟩
  · intro it h
    exact ⟨it, h, rfl, rfl, rfl⟩
  · intro it h hf hp
    subst hf
    simp only [exec, search]
    simp [h, hp]

/-- C10 witness: a concrete search with the photo flag set. -/
theorem search_does_not_mutate_witness :
    (exec env0 st1 (Op.search 1 "true")).2 = st1
    ∧ (exec env0 st1 (Op.search 1 "true")).1
        = Resp.okSearch 1 "Laptop" ("" ++ " [Фото: " ++ photoUrl env0 1 ++ "]")
            (photoUrlOpt env0 ⟨1, "Laptop", "", some "1-a.jpg"⟩) := by
  have h := search_does_not_mutate env0 st1 1 "true"
  exact ⟨h.1, h.2.2.2 ⟨1, "Laptop", "", some "1-a.jpg"⟩ (by decide) rfl (by decide)⟩

/-- C2 (failing input): the multer filename callback concatenates the
client-supplied original name verbatim after the timestamp, so a hint
containing a path separator and a parent-directory segment survives
into the generated blob name unsanitized. -/
theorem multer_filename_keeps_traversal :
    multerFilename 5 "../evil.jpg" = "5-../evil.jpg"
    ∧ '/' ∈ (multerFilename 5 "../evil.jpg").data
    ∧ List.IsInfix ['.', '.', '/'] (multerFilename 5 "../evil.jpg").data := by
  refine ⟨by decide, by decide, by decide⟩

end Inventory
